import Mathlib

/-!
Verification of the ClawVault sync core (Obsidian plugin).

This file gives a shallow embedding of the sync engine of the repository:
the manifest diff (`SyncEngine.diffManifests` and its helpers
`normalizePath`, `getCategoryForPath`, `isInternalPath`, `shouldSyncPath`,
`matchesExcludePatterns`, `compileGlobPattern`, `toFileMap`, `toEpoch`),
the conflict resolver (`SyncResolver.resolve` / `resolveNewest`), and the
manifest normalization of the transport client
(`SyncClient.fetchManifest` / `normalizeManifest`).

Modelling conventions:
- JavaScript strings are Lean `String`s; character-level JS operations
  (`replace`, `split`, `trim`, `startsWith`) are re-implemented over
  `List Char` with the same semantics, restricted to ASCII whitespace.
- JS numbers are modelled at integer precision (`Int`); every timestamp
  the code manipulates is an epoch-milliseconds integer.
- `Date.parse` is an environment function: it is passed explicitly as a
  parameter `dp : String → Option Int`, where `none` models `NaN`.
- JS `Map`/`Set` (insertion ordered) are association lists / first-occurrence
  deduplicated lists.
-/

namespace ClawVault

/-- One character of `normalizePath`: the `replace(/\\/g, "/")` step. -/
def jsSlash (c : Char) : Char := if c = '\\' then '/' else c

/-- The `replace(/\/{2,}/g, "/")` step: collapse runs of slashes. -/
def collapseSlashes : List Char → List Char
  | [] => []
  | [c] => [c]
  | c1 :: c2 :: rest =>
    if c1 = '/' ∧ c2 = '/' then collapseSlashes (c2 :: rest)
    else c1 :: collapseSlashes (c2 :: rest)

/-- `SyncEngine.normalizePath`: backslashes to slashes, strip leading
slashes, collapse repeated slashes. -/
def normalizePath (path : String) : String :=
  (collapseSlashes ((path.toList.map jsSlash).dropWhile (fun c => c = '/'))).asString

/-- JS `s.startsWith(pat)` over char lists (second argument is the pattern). -/
def listStartsWith : List Char → List Char → Bool
  | _, [] => true
  | [], _ :: _ => false
  | c :: cs, p :: ps => c = p && listStartsWith cs ps

/-- JS `s.startsWith(pat)`. -/
def strStartsWith (s pat : String) : Bool := listStartsWith s.toList pat.toList

/-- ASCII whitespace recognised by JS `String.prototype.trim`. -/
def isJsSpaceChar (c : Char) : Bool :=
  c = ' ' || c = '\t' || c = '\n' || c = '\r' || c = Char.ofNat 11 || c = Char.ofNat 12

/-- JS `s.trim()` (ASCII whitespace). -/
def jsTrim (s : String) : String :=
  (((s.toList.dropWhile isJsSpaceChar).reverse.dropWhile isJsSpaceChar).reverse).asString

/-- First path segment, JS `path.split("/")[0]`. -/
def firstSegment (s : String) : String :=
  (s.toList.takeWhile (fun c => c ≠ '/')).asString

/-- Whether a string starts with a dot, JS `s.startsWith(".")`. -/
def headIsDot (s : String) : Bool :=
  match s.toList with
  | '.' :: _ => true
  | _ => false

/-- `SyncEngine.getCategoryForPath`: first segment of the normalized path,
empty for empty or dot-leading segments. -/
def getCategoryForPath (path : String) : String :=
  let normalized := normalizePath path
  let first := firstSegment normalized
  if first = "" || headIsDot first then "" else first

/-- `SyncEngine.isInternalPath`: the plugin's own configuration directories. -/
def isInternalPath (path : String) : Bool :=
  let normalized := normalizePath path
  normalized == ".obsidian" || normalized == ".clawvault" ||
    strStartsWith normalized ".obsidian/" || strStartsWith normalized ".clawvault/"

/-- Tokens of the anchored regex produced by `SyncEngine.compileGlobPattern`:
`**` becomes `.*`, a single `*` becomes a non-slash run `[^/]*`, `?` becomes
`.`, every other character is (escaped and) matched literally. -/
inductive GlobToken where
  | anyRun : GlobToken
  | segRun : GlobToken
  | anyChar : GlobToken
  | lit : Char → GlobToken
deriving DecidableEq

/-- The scanning loop of `SyncEngine.compileGlobPattern`. -/
def compileGlobTokens : List Char → List GlobToken
  | [] => []
  | '*' :: '*' :: rest => GlobToken.anyRun :: compileGlobTokens rest
  | '*' :: rest => GlobToken.segRun :: compileGlobTokens rest
  | '?' :: rest => GlobToken.anyChar :: compileGlobTokens rest
  | c :: rest => GlobToken.lit c :: compileGlobTokens rest

/-- JS regex line terminators, which `.` (and hence `.*`) never matches. -/
def isLineTerminator (c : Char) : Bool :=
  c = '\n' || c = '\r' || c = Char.ofNat 0x2028 || c = Char.ofNat 0x2029

/-- Match a run of characters satisfying `ok`, then continue with `k`
(the semantics of a starred character class in the compiled regex). -/
def starRun (ok : Char → Bool) (k : List Char → Bool) : List Char → Bool
  | [] => k []
  | c :: s => k (c :: s) || (ok c && starRun ok k s)

/-- Anchored matching of the compiled glob regex against a string. -/
def globTokensMatch : List GlobToken → List Char → Bool
  | [], s => s.isEmpty
  | GlobToken.lit _ :: _, [] => false
  | GlobToken.lit c :: ts, d :: s => c = d && globTokensMatch ts s
  | GlobToken.anyChar :: _, [] => false
  | GlobToken.anyChar :: ts, d :: s => !isLineTerminator d && globTokensMatch ts s
  | GlobToken.anyRun :: ts, s => starRun (fun c => !isLineTerminator c) (globTokensMatch ts) s
  | GlobToken.segRun :: ts, s => starRun (fun c => c ≠ '/') (globTokensMatch ts) s

/-- Test of one compiled exclusion pattern against a path:
`compileGlobPattern(pattern).test(path)`. The pattern is normalized by
`compileGlobPattern` before scanning. -/
def globPatternTest (pattern path : String) : Bool :=
  globTokensMatch (compileGlobTokens (normalizePath pattern).toList) path.toList

/-- `ConflictStrategy` is a string union in the source; it is kept as a
string so that out-of-set runtime values can be reasoned about. -/
structure SyncStatsSummary where
  pulled : Int
  pushed : Int
  conflicts : Int
deriving DecidableEq

/-- `SyncSettings` of `sync-types.ts`. -/
structure SyncSettings where
  serverUrl : String
  authUsername : String
  authPassword : String
  autoSyncEnabled : Bool
  autoSyncInterval : Int
  syncOnOpen : Bool
  syncOnClose : Bool
  syncCategories : List String
  excludePatterns : List String
  conflictStrategy : String
  lastSyncTimestamp : Int
  lastSyncStats : Option SyncStatsSummary
deriving DecidableEq

/-- `DEFAULT_SYNC_SETTINGS` of `sync-types.ts`. -/
def DEFAULT_SYNC_SETTINGS : SyncSettings :=
  { serverUrl := ""
    authUsername := ""
    authPassword := ""
    autoSyncEnabled := false
    autoSyncInterval := 15
    syncOnOpen := true
    syncOnClose := false
    syncCategories := []
    excludePatterns := []
    conflictStrategy := "newest-wins"
    lastSyncTimestamp := 0
    lastSyncStats := none }

/-- `SyncEngine.matchesExcludePatterns`: some trimmed, non-empty exclusion
pattern's compiled regex matches the path. -/
def matchesExcludePatterns (settings : SyncSettings) (path : String) : Bool :=
  settings.excludePatterns.any (fun rawPattern =>
    let pattern := jsTrim rawPattern
    pattern != "" && globPatternTest pattern path)

/-- `SyncEngine.shouldSyncPath` (the source binds `normalized` and
`category` once; they are inlined here). -/
def shouldSyncPath (settings : SyncSettings) (path : String)
    (categoryOverride : Option String) : Bool :=
  if normalizePath path = "" || isInternalPath (normalizePath path) then false
  else if matchesExcludePatterns settings (normalizePath path) then false
  else if settings.syncCategories.isEmpty then true
  else if categoryOverride.getD (getCategoryForPath (normalizePath path)) = "" then true
  else settings.syncCategories.contains
    (categoryOverride.getD (getCategoryForPath (normalizePath path)))

/-- `ManifestFileRecord` of `sync-types.ts`. -/
structure ManifestFileRecord where
  path : String
  size : Int
  checksum : String
  modified : String
  category : Option String
deriving DecidableEq

/-- `VaultManifest` of `sync-types.ts`. -/
structure VaultManifest where
  generatedAt : String
  files : List ManifestFileRecord
deriving DecidableEq

/-- `SyncMode` of `sync-types.ts`. -/
inductive SyncMode where
  | full : SyncMode
  | pull : SyncMode
  | push : SyncMode
deriving DecidableEq

/-- Direction of a `SyncFileAction`. -/
inductive SyncDirection where
  | pull : SyncDirection
  | push : SyncDirection
  | delete : SyncDirection
deriving DecidableEq

/-- `SyncFileAction` of `sync-types.ts`. -/
structure SyncFileAction where
  path : String
  direction : SyncDirection
  reason : String
  localModified : Option Int := none
  remoteModified : Option String := none
  size : Option Int := none
deriving DecidableEq

/-- `SyncConflict` of `sync-types.ts`. -/
structure SyncConflict where
  path : String
  localModified : Int
  remoteModified : String
  localSize : Int
  remoteSize : Int
deriving DecidableEq

/-- `SyncPlan` of `sync-types.ts`. -/
structure SyncPlan where
  toPull : List SyncFileAction
  toPush : List SyncFileAction
  conflicts : List SyncConflict
  toDelete : List SyncFileAction
  unchanged : List String
deriving DecidableEq

/-- `SyncEngine.toEpoch`: `Date.parse` with non-finite results mapped to 0.
`dp` is the environment's `Date.parse` (`none` models `NaN`). -/
def toEpoch (dp : String → Option Int) (value : String) : Int :=
  (dp value).getD 0

/-- One `map.set(key, value)` step of a JS `Map` modelled as an association
list: replace in place when the key is present, append otherwise. -/
def mapSet (m : List (String × ManifestFileRecord)) (k : String)
    (v : ManifestFileRecord) : List (String × ManifestFileRecord) :=
  if (List.lookup k m).isSome then
    m.map (fun kv => if kv.1 = k then (k, v) else kv)
  else m ++ [(k, v)]

/-- Loop of `SyncEngine.toFileMap`. -/
def toFileMapGo (m : List (String × ManifestFileRecord)) :
    List ManifestFileRecord → List (String × ManifestFileRecord)
  | [] => m
  | e :: es =>
      toFileMapGo (mapSet m (normalizePath e.path) { e with path := normalizePath e.path }) es

/-- `SyncEngine.toFileMap`: path-keyed map of the records, keys and stored
paths normalized, later records overwriting earlier ones. -/
def toFileMap (entries : List ManifestFileRecord) : List (String × ManifestFileRecord) :=
  toFileMapGo [] entries

/-- The filtered map built by `diffManifests` for one manifest:
`toFileMap(manifest.files.filter((entry) => shouldSyncPath(entry.path, entry.category)))`. -/
def filteredMap (settings : SyncSettings) (m : VaultManifest) :
    List (String × ManifestFileRecord) :=
  toFileMap (m.files.filter (fun e => shouldSyncPath settings e.path e.category))

/-- First-occurrence deduplication, the order a JS `Set` iterates in. -/
def firstDedup : List String → List String
  | [] => []
  | k :: ks => k :: (firstDedup ks).filter (fun q => q ≠ k)

/-- The `allPaths` set of `diffManifests`: local map keys then remote map
keys, first occurrence kept. -/
def diffUnionPaths (settings : SyncSettings) (lm rm : VaultManifest) : List String :=
  firstDedup ((filteredMap settings lm).map Prod.fst ++ (filteredMap settings rm).map Prod.fst)

/-- What one iteration of the `diffManifests` loop does with one path. -/
inductive DiffOutcome where
  | pullA : SyncFileAction → DiffOutcome
  | pushA : SyncFileAction → DiffOutcome
  | conflictA : SyncConflict → DiffOutcome
  | unchangedA : DiffOutcome
  | skip : DiffOutcome
deriving DecidableEq

/-- The body of the `for (const path of allPaths)` loop of
`SyncEngine.diffManifests`, classifying one path. -/
def diffStep (dp : String → Option Int) (settings : SyncSettings) (mode : SyncMode)
    (path : String) :
    Option ManifestFileRecord → Option ManifestFileRecord → DiffOutcome
  | none, none => DiffOutcome.skip
  | none, some remote =>
      if mode ≠ SyncMode.push then
        DiffOutcome.pullA
          { path, direction := SyncDirection.pull, reason := "new remote file",
            remoteModified := some remote.modified, size := some remote.size }
      else DiffOutcome.skip
  | some localRec, none =>
      if mode ≠ SyncMode.pull then
        DiffOutcome.pushA
          { path, direction := SyncDirection.push, reason := "new local file",
            localModified := some (toEpoch dp localRec.modified), size := some localRec.size }
      else DiffOutcome.skip
  | some localRec, some remote =>
      if localRec.checksum = remote.checksum ∧ localRec.checksum.length > 0 then
        DiffOutcome.unchangedA
      else if settings.lastSyncTimestamp > 0 ∧
          toEpoch dp localRec.modified > settings.lastSyncTimestamp ∧
          toEpoch dp remote.modified > settings.lastSyncTimestamp ∧
          mode = SyncMode.full then
        DiffOutcome.conflictA
          { path, localModified := toEpoch dp localRec.modified,
            remoteModified := remote.modified,
            localSize := localRec.size, remoteSize := remote.size }
      else if toEpoch dp remote.modified > toEpoch dp localRec.modified ∧
          mode ≠ SyncMode.push then
        DiffOutcome.pullA
          { path, direction := SyncDirection.pull, reason := "remote newer",
            localModified := some (toEpoch dp localRec.modified),
            remoteModified := some remote.modified, size := some remote.size }
      else if toEpoch dp localRec.modified > toEpoch dp remote.modified ∧
          mode ≠ SyncMode.pull then
        DiffOutcome.pushA
          { path, direction := SyncDirection.push, reason := "local newer",
            localModified := some (toEpoch dp localRec.modified),
            remoteModified := some remote.modified, size := some localRec.size }
      else if mode = SyncMode.full then
        DiffOutcome.conflictA
          { path, localModified := toEpoch dp localRec.modified,
            remoteModified := remote.modified,
            localSize := localRec.size, remoteSize := remote.size }
      else if mode = SyncMode.pull then
        DiffOutcome.pullA
          { path, direction := SyncDirection.pull, reason := "checksum mismatch",
            localModified := some (toEpoch dp localRec.modified),
            remoteModified := some remote.modified, size := some remote.size }
      else
        DiffOutcome.pushA
          { path, direction := SyncDirection.push, reason := "checksum mismatch",
            localModified := some (toEpoch dp localRec.modified),
            remoteModified := some remote.modified, size := some localRec.size }

/-- Pull-bucket extractor of a loop outcome. -/
def outPull : DiffOutcome → Option SyncFileAction
  | DiffOutcome.pullA a => some a
  | _ => none

/-- Push-bucket extractor of a loop outcome. -/
def outPush : DiffOutcome → Option SyncFileAction
  | DiffOutcome.pushA a => some a
  | _ => none

/-- Conflict-bucket extractor of a loop outcome. -/
def outConflict : DiffOutcome → Option SyncConflict
  | DiffOutcome.conflictA c => some c
  | _ => none

/-- The outcome of the loop iteration for one path of `diffManifests`. -/
def diffOutcomeAt (dp : String → Option Int) (settings : SyncSettings)
    (lm rm : VaultManifest) (mode : SyncMode) (p : String) : DiffOutcome :=
  diffStep dp settings mode p
    (List.lookup p (filteredMap settings lm))
    (List.lookup p (filteredMap settings rm))

/-- `SyncEngine.diffManifests`. Each bucket collects, in iteration order,
the paths whose loop iteration pushed into it; `toDelete` is created and
never populated. -/
def diffManifests (dp : String → Option Int) (settings : SyncSettings)
    (lm rm : VaultManifest) (mode : SyncMode) : SyncPlan :=
  { toPull := (diffUnionPaths settings lm rm).filterMap
      (fun p => outPull (diffOutcomeAt dp settings lm rm mode p))
    toPush := (diffUnionPaths settings lm rm).filterMap
      (fun p => outPush (diffOutcomeAt dp settings lm rm mode p))
    conflicts := (diffUnionPaths settings lm rm).filterMap
      (fun p => outConflict (diffOutcomeAt dp settings lm rm mode p))
    toDelete := []
    unchanged := (diffUnionPaths settings lm rm).filterMap (fun p =>
      match diffOutcomeAt dp settings lm rm mode p with
      | DiffOutcome.unchangedA => some p
      | _ => none) }

/-- `ResolvedConflictAction` of `sync-resolver.ts`. -/
structure ResolvedConflictAction where
  action : SyncFileAction
  preserveLocalCopy : Bool
deriving DecidableEq

namespace SyncResolver

/-- `SyncResolver.createPullAction`. -/
def createPullAction (conflict : SyncConflict) (reason : String) : SyncFileAction :=
  { path := conflict.path, direction := SyncDirection.pull, reason,
    localModified := some conflict.localModified,
    remoteModified := some conflict.remoteModified,
    size := some conflict.remoteSize }

/-- `SyncResolver.createPushAction`. -/
def createPushAction (conflict : SyncConflict) (reason : String) : SyncFileAction :=
  { path := conflict.path, direction := SyncDirection.push, reason,
    localModified := some conflict.localModified,
    remoteModified := some conflict.remoteModified,
    size := some conflict.localSize }

/-- `SyncResolver.resolveNewest`: pull if the remote timestamp parses to a
finite value strictly newer than the local one, push otherwise. -/
def resolveNewest (dp : String → Option Int) (conflict : SyncConflict) :
    ResolvedConflictAction :=
  match dp conflict.remoteModified with
  | some remoteTime =>
      if remoteTime > conflict.localModified then
        { action := createPullAction conflict "conflict: remote newer",
          preserveLocalCopy := false }
      else
        { action := createPushAction conflict "conflict: local newer",
          preserveLocalCopy := false }
  | none =>
      { action := createPushAction conflict "conflict: local newer",
        preserveLocalCopy := false }

/-- `SyncResolver.resolve`. The strategy is a runtime string; the `"ask"`
case of the source recurses with `"newest-wins"`, which evaluates to
`resolveNewest`, inlined here. -/
def resolve (dp : String → Option Int) (isMobile : Bool) (conflict : SyncConflict)
    (strategy : String) : ResolvedConflictAction :=
  let effectiveStrategy := if strategy = "ask" ∧ isMobile = true then "newest-wins" else strategy
  if effectiveStrategy = "remote-wins" then
    { action := createPullAction conflict "conflict: remote wins", preserveLocalCopy := false }
  else if effectiveStrategy = "local-wins" then
    { action := createPushAction conflict "conflict: local wins", preserveLocalCopy := false }
  else if effectiveStrategy = "keep-both" then
    { action := createPullAction conflict "conflict: keep both", preserveLocalCopy := true }
  else if effectiveStrategy = "ask" then
    resolveNewest dp conflict
  else
    resolveNewest dp conflict

end SyncResolver

/-- The number of successful delete requests issued by `executeSync` for a
plan, with the per-path success of the remote `deleteFile` call abstracted
by the oracle `success` (a failing action is recorded in `errors` and does
not increment the `deleted` counter). -/
def executeSyncDeleted (success : String → Bool) (plan : SyncPlan) (mode : SyncMode) : Nat :=
  if mode = SyncMode.full ∧ plan.toDelete.length > 0 then
    (plan.toDelete.filter (fun a => success a.path)).length
  else 0

/-- JSON values, as produced by `JSON.parse`. Numbers are modelled at
integer precision; `JSON.parse` can never produce `NaN` or `undefined`. -/
inductive Json where
  | null : Json
  | bool : Bool → Json
  | num : Int → Json
  | str : String → Json
  | arr : List Json → Json
  | obj : List (String × Json) → Json

/-- `SyncClient.toRecord`: non-null, non-array objects only. -/
def toRecord : Json → Option (List (String × Json))
  | Json.obj fields => some fields
  | _ => none

/-- JS falsiness of a parsed JSON value (`!payload`). -/
def jsFalsy : Json → Bool
  | Json.null => true
  | Json.bool b => !b
  | Json.num n => n == 0
  | Json.str s => s == ""
  | _ => false

/-- Loop of `SyncClient.readString`: first listed key whose value is a
string with non-empty trimmed content. -/
def readStringGo (src : List (String × Json)) : List String → Option String
  | [] => none
  | k :: ks =>
      match List.lookup k src with
      | some (Json.str v) => if jsTrim v ≠ "" then some v else readStringGo src ks
      | _ => readStringGo src ks

/-- `SyncClient.readString`. -/
def readString (source : Option (List (String × Json))) (keys : List String) : Option String :=
  match source with
  | none => none
  | some src => readStringGo src keys

/-- JS `Number.parseFloat` at integer precision: optional leading
whitespace and sign, then a digit run; no digits parse to `NaN` (`none`). -/
def parseFloatInt (s : String) : Option Int :=
  let cs := s.toList.dropWhile isJsSpaceChar
  let signAndRest : Int × List Char :=
    match cs with
    | '-' :: rest => (-1, rest)
    | '+' :: rest => (1, rest)
    | _ => (1, cs)
  let digits := signAndRest.2.takeWhile (fun c => c.isDigit)
  if digits.isEmpty then none
  else some (signAndRest.1 * (digits.foldl (fun acc c => acc * 10 + (c.toNat - '0'.toNat)) 0 : Nat))

/-- Loop of `SyncClient.readNumber`: first listed key holding a finite
number, or a non-blank string parsing to a finite number. -/
def readNumberGo (src : List (String × Json)) : List String → Option Int
  | [] => none
  | k :: ks =>
      match List.lookup k src with
      | some (Json.num n) => some n
      | some (Json.str v) =>
          if jsTrim v ≠ "" then
            match parseFloatInt v with
            | some parsed => some parsed
            | none => readNumberGo src ks
          else readNumberGo src ks
      | _ => readNumberGo src ks

/-- `SyncClient.readNumber`. -/
def readNumber (source : Option (List (String × Json))) (keys : List String) : Option Int :=
  match source with
  | none => none
  | some src => readNumberGo src keys

/-- `new Date(0).toISOString()`. -/
def epochIso : String := "1970-01-01T00:00:00.000Z"

/-- `SyncClient.isMetadataKey`. -/
def isMetadataKey (key : String) : Bool :=
  ["generatedAt", "timestamp", "updatedAt", "files", "vault", "name", "stats",
    "version"].contains key

/-- `SyncClient.looksLikeFilePath`. -/
def looksLikeFilePath (value : String) : Bool :=
  value.toList.contains '/' || value.toList.contains '.' || strStartsWith value "_"

/-- `SyncClient.parseManifestFile`. A missing or empty `keyPath` is falsy in
the source's `!record && !keyPath` test. -/
def parseManifestFile (rawValue : Json) (keyPath : Option String) : Option ManifestFileRecord :=
  let record := toRecord rawValue
  if record.isNone ∧ keyPath.getD "" = "" then none
  else
    let path := normalizePath ((readString record ["path", "file", "name"]).getD (keyPath.getD ""))
    if path = "" then none
    else
      some
        { path
          checksum := (readString record ["checksum", "hash", "sha256"]).getD ""
          modified :=
            (readString record ["modified", "mtime", "updatedAt", "lastModified"]).getD epochIso
          size := (readNumber record ["size", "bytes"]).getD 0
          category := (readString record ["category"]).orElse (fun _ => some (firstSegment path)) }

/-- `SyncClient.normalizeManifest`. `nowIso` is the environment's
`new Date().toISOString()`. -/
def normalizeManifest (nowIso : String) (payload : Json) : Except String VaultManifest :=
  match toRecord payload with
  | none => Except.error "Manifest payload is not an object"
  | some source =>
      let rawFiles := List.lookup "files" source
      let files :=
        match rawFiles with
        | some (Json.arr items) => items.filterMap (fun rawFile => parseManifestFile rawFile none)
        | _ =>
            let fileMap := rawFiles.bind toRecord
            let candidates := fileMap.getD source
            candidates.filterMap (fun kv =>
              if isMetadataKey kv.1 then none
              else if ¬looksLikeFilePath kv.1 ∧ fileMap.isNone then none
              else parseManifestFile kv.2 (some kv.1))
      let generatedAt := (readString (some source) ["generatedAt", "timestamp", "updatedAt"]).getD nowIso
      Except.ok { generatedAt, files }

/-- `SyncClient.fetchManifest`, modelled from the parsed response body:
`none` stands for a body that is not parseable JSON (`safeJson` returns
`null`); a parsed but falsy payload also fails the `!payload` test. -/
def fetchManifestFromPayload (nowIso : String) (payload : Option Json) :
    Except String VaultManifest :=
  match payload with
  | none => Except.error "Manifest response was empty"
  | some j =>
      if jsFalsy j then Except.error "Manifest response was empty"
      else normalizeManifest nowIso j

/-! ### Association-list and deduplication lemmas -/

theorem lookup_isSome_iff_mem_keys {β : Type} (m : List (String × β)) (p : String) :
    (List.lookup p m).isSome = true ↔ p ∈ m.map Prod.fst := by
  induction m with
  | nil => simp [List.lookup]
  | cons kv t ih =>
    obtain ⟨k, v⟩ := kv
    by_cases h : p = k
    · subst h; simp [List.lookup]
    · simp only [List.lookup, List.map_cons, List.mem_cons]
      have hbeq : (p == k) = false := by simp [h]
      simp [hbeq, ih, h]

theorem mem_keys_mapSet {m : List (String × ManifestFileRecord)} {k q : String}
    {v : ManifestFileRecord} (h : q ∈ (mapSet m k v).map Prod.fst) :
    q ∈ m.map Prod.fst ∨ q = k := by
  unfold mapSet at h
  split at h
  · rcases List.mem_map.mp h with ⟨kv, hkv, hq⟩
    rcases List.mem_map.mp hkv with ⟨kv0, hkv0, hkv0e⟩
    by_cases hk : kv0.1 = k
    · right
      rw [← hq, ← hkv0e]
      simp [hk]
    · left
      rw [← hq, ← hkv0e]
      simp only [hk, if_neg, ite_false]
      exact List.mem_map.mpr ⟨kv0, hkv0, rfl⟩
  · rw [List.map_append] at h
    rcases List.mem_append.mp h with h' | h'
    · exact Or.inl h'
    · right; simpa using h'

theorem mem_keys_toFileMapGo (es : List ManifestFileRecord) :
    ∀ (m : List (String × ManifestFileRecord)) (q : String),
      q ∈ (toFileMapGo m es).map Prod.fst →
      q ∈ m.map Prod.fst ∨ ∃ e ∈ es, normalizePath e.path = q := by
  induction es with
  | nil => intro m q h; exact Or.inl h
  | cons e es ih =>
    intro m q h
    rcases ih _ q h with h' | ⟨e', he', hq⟩
    · rcases mem_keys_mapSet h' with h'' | rfl
      · exact Or.inl h''
      · exact Or.inr ⟨e, List.mem_cons_self e es, rfl⟩
    · exact Or.inr ⟨e', List.mem_cons_of_mem e he', hq⟩

theorem filteredMap_key_shouldSync (settings : SyncSettings) (man : VaultManifest)
    (q : String) (h : q ∈ (filteredMap settings man).map Prod.fst) :
    ∃ e ∈ man.files, shouldSyncPath settings e.path e.category = true ∧
      normalizePath e.path = q := by
  unfold filteredMap toFileMap at h
  rcases mem_keys_toFileMapGo _ _ _ h with h' | ⟨e, he, hq⟩
  · simp at h'
  · rcases List.mem_filter.mp he with ⟨hmem, hpred⟩
    exact ⟨e, hmem, hpred, hq⟩

theorem mem_firstDedup (xs : List String) (p : String) :
    p ∈ firstDedup xs ↔ p ∈ xs := by
  induction xs with
  | nil => simp [firstDedup]
  | cons k ks ih =>
    simp only [firstDedup, List.mem_cons, List.mem_filter]
    constructor
    · rintro (rfl | ⟨h1, _⟩)
      · exact Or.inl rfl
      · exact Or.inr (ih.mp h1)
    · rintro (rfl | h)
      · exact Or.inl rfl
      · by_cases hk : p = k
        · exact Or.inl hk
        · exact Or.inr ⟨ih.mpr h, by simpa using hk⟩

theorem firstDedup_nodup (xs : List String) : (firstDedup xs).Nodup := by
  induction xs with
  | nil => simp [firstDedup]
  | cons k ks ih =>
    simp only [firstDedup]
    refine List.nodup_cons.mpr ⟨?_, List.Nodup.filter _ ih⟩
    intro hmem
    rcases List.mem_filter.mp hmem with ⟨_, hne⟩
    simp at hne

theorem length_filter_eq_of_nodup (xs : List String) (p : String) (h : xs.Nodup) :
    (xs.filter (fun q => q = p)).length = if p ∈ xs then 1 else 0 := by
  induction xs with
  | nil => simp
  | cons x xs ih =>
    rcases List.nodup_cons.mp h with ⟨hx, hxs⟩
    by_cases hxp : x = p
    · subst hxp
      simp only [List.filter_cons, decide_eq_true_eq, if_pos rfl, List.mem_cons, true_or,
        if_true]
      have : x ∉ xs := hx
      simp [ih hxs, this]
    · simp only [List.filter_cons, decide_eq_true_eq, hxp, ite_false, List.mem_cons]
      rw [ih hxs]
      have hpx : ¬p = x := fun h' => hxp h'.symm
      simp [hpx]

theorem length_filter_filterMap {α : Type} (f : String → Option α) (g : α → String)
    (hf : ∀ q a, f q = some a → g a = q) (xs : List String) (p : String) :
    ((xs.filterMap f).filter (fun a => g a = p)).length =
      if (f p).isSome then (xs.filter (fun q => q = p)).length else 0 := by
  induction xs with
  | nil => simp
  | cons x xs ih =>
    cases hfx : f x with
    | none =>
      by_cases hxp : x = p
      · subst hxp
        simp [List.filterMap_cons, hfx, ih]
      · simp only [List.filterMap_cons, hfx, List.filter_cons, decide_eq_true_eq, hxp,
          ite_false]
        exact ih
    | some a =>
      have hga := hf x a hfx
      by_cases hxp : x = p
      · subst hxp
        simp only [List.filterMap_cons, hfx, List.filter_cons, decide_eq_true_eq, hga,
          if_pos rfl, List.length_cons, Option.isSome_some, if_true]
        rw [ih, hfx]
        simp
      · simp only [List.filterMap_cons, hfx, List.filter_cons, decide_eq_true_eq, hga, hxp,
          ite_false]
        exact ih

/-! ### Analysis of one diff-loop iteration -/

theorem outPull_eq_some {o : DiffOutcome} {a : SyncFileAction}
    (h : outPull o = some a) : o = DiffOutcome.pullA a := by
  cases o <;> simp_all [outPull]

theorem outPush_eq_some {o : DiffOutcome} {a : SyncFileAction}
    (h : outPush o = some a) : o = DiffOutcome.pushA a := by
  cases o <;> simp_all [outPush]

theorem outConflict_eq_some {o : DiffOutcome} {c : SyncConflict}
    (h : outConflict o = some c) : o = DiffOutcome.conflictA c := by
  cases o <;> simp_all [outConflict]

/-- Every action or conflict produced by a loop iteration carries the
iterated path. -/
theorem diffStep_pullA_path {dp : String → Option Int} {settings : SyncSettings}
    {mode : SyncMode} {p : String} {l? r? : Option ManifestFileRecord}
    {a : SyncFileAction} (h : diffStep dp settings mode p l? r? = DiffOutcome.pullA a) :
    a.path = p := by
  cases l? <;> cases r? <;> simp only [diffStep] at h <;> repeat' split at h
  all_goals first
    | (cases h; rfl)
    | simp_all

theorem diffStep_pushA_path {dp : String → Option Int} {settings : SyncSettings}
    {mode : SyncMode} {p : String} {l? r? : Option ManifestFileRecord}
    {a : SyncFileAction} (h : diffStep dp settings mode p l? r? = DiffOutcome.pushA a) :
    a.path = p := by
  cases l? <;> cases r? <;> simp only [diffStep] at h <;> repeat' split at h
  all_goals first
    | (cases h; rfl)
    | simp_all

theorem diffStep_conflictA_path {dp : String → Option Int} {settings : SyncSettings}
    {mode : SyncMode} {p : String} {l? r? : Option ManifestFileRecord}
    {c : SyncConflict} (h : diffStep dp settings mode p l? r? = DiffOutcome.conflictA c) :
    c.path = p := by
  cases l? <;> cases r? <;> simp only [diffStep] at h <;> repeat' split at h
  all_goals first
    | (cases h; rfl)
    | simp_all

/-- A conflict is only ever produced in `full` mode, and then only by the
both-modified-since-last-sync gate or by the equal-timestamps fallback. -/
theorem diffStep_conflict_inversion {dp : String → Option Int} {settings : SyncSettings}
    {mode : SyncMode} {p : String} {l? r? : Option ManifestFileRecord}
    {c : SyncConflict} (h : diffStep dp settings mode p l? r? = DiffOutcome.conflictA c) :
    mode = SyncMode.full ∧
      ((settings.lastSyncTimestamp > 0 ∧
          c.localModified > settings.lastSyncTimestamp ∧
          toEpoch dp c.remoteModified > settings.lastSyncTimestamp) ∨
        toEpoch dp c.remoteModified = c.localModified) := by
  cases l? with
  | none =>
    cases r? <;> simp only [diffStep] at h <;> repeat' split at h
    all_goals simp_all
  | some localRec =>
    cases r? with
    | none =>
      simp only [diffStep] at h
      split at h <;> simp_all
    | some remote =>
      simp only [diffStep] at h
      split at h
      · simp_all
      · split at h
        · rename_i hGate
          cases h
          exact ⟨hGate.2.2.2, Or.inl ⟨hGate.1, hGate.2.1, hGate.2.2.1⟩⟩
        · rename_i hGate
          split at h
          · simp_all
          · rename_i hrl
            split at h
            · simp_all
            · rename_i hlr
              split at h
              · rename_i hm
                cases h
                refine ⟨hm, Or.inr ?_⟩
                have h1 : ¬toEpoch dp remote.modified > toEpoch dp localRec.modified := by
                  intro hgt
                  exact hrl ⟨hgt, by simp [hm]⟩
                have h2 : ¬toEpoch dp localRec.modified > toEpoch dp remote.modified := by
                  intro hgt
                  exact hlr ⟨hgt, by simp [hm]⟩
                show toEpoch dp remote.modified = toEpoch dp localRec.modified
                omega
              · split at h <;> simp_all

/-- In `full` mode every path with at least one record is classified. -/
theorem diffStep_full_ne_skip {dp : String → Option Int} {settings : SyncSettings}
    {p : String} {l? r? : Option ManifestFileRecord}
    (hlr : l?.isSome = true ∨ r?.isSome = true) :
    diffStep dp settings SyncMode.full p l? r? ≠ DiffOutcome.skip := by
  cases l? with
  | none =>
    cases r? with
    | none => simp at hlr
    | some r =>
      simp only [diffStep]
      rw [if_pos (by decide)]
      simp
  | some l =>
    cases r? with
    | none =>
      simp only [diffStep]
      rw [if_pos (by decide)]
      simp
    | some r =>
      simp only [diffStep]
      repeat' split
      all_goals simp_all

/-! ### Partition counting -/

/-- Number of times a path is classified by a plan: its occurrences across
all five buckets (the formalisation of "appears in exactly / at most one
of {toPull, toPush, conflicts, toDelete, unchanged}"). -/
def pathCount (plan : SyncPlan) (p : String) : Nat :=
  (plan.toPull.filter (fun a => a.path = p)).length +
    (plan.toPush.filter (fun a => a.path = p)).length +
    (plan.conflicts.filter (fun c => c.path = p)).length +
    (plan.toDelete.filter (fun a => a.path = p)).length +
    (plan.unchanged.filter (fun q => q = p)).length

theorem outUnchanged_path {o : DiffOutcome} {q s : String}
    (h : (match o with | DiffOutcome.unchangedA => some q | _ => none) = some s) :
    s = q := by
  cases o <;> simp_all

theorem diffUnionPaths_nodup (settings : SyncSettings) (lm rm : VaultManifest) :
    (diffUnionPaths settings lm rm).Nodup :=
  firstDedup_nodup _

theorem pathCount_diff (dp : String → Option Int) (settings : SyncSettings)
    (lm rm : VaultManifest) (mode : SyncMode) (p : String) :
    pathCount (diffManifests dp settings lm rm mode) p =
      if diffOutcomeAt dp settings lm rm mode p = DiffOutcome.skip then 0
      else ((diffUnionPaths settings lm rm).filter (fun q => q = p)).length := by
  unfold pathCount diffManifests
  simp only
  rw [length_filter_filterMap (fun q => outPull (diffOutcomeAt dp settings lm rm mode q))
      SyncFileAction.path
      (fun q a h => diffStep_pullA_path (outPull_eq_some h))]
  rw [length_filter_filterMap (fun q => outPush (diffOutcomeAt dp settings lm rm mode q))
      SyncFileAction.path
      (fun q a h => diffStep_pushA_path (outPush_eq_some h))]
  rw [length_filter_filterMap (fun q => outConflict (diffOutcomeAt dp settings lm rm mode q))
      SyncConflict.path
      (fun q c h => diffStep_conflictA_path (outConflict_eq_some h))]
  rw [length_filter_filterMap
      (fun q => match diffOutcomeAt dp settings lm rm mode q with
        | DiffOutcome.unchangedA => some q
        | _ => none)
      (fun s => s)
      (fun q s h => outUnchanged_path h)]
  cases diffOutcomeAt dp settings lm rm mode p <;> simp [outPull, outPush, outConflict]

/-- A path in the diff's union whose iteration is reached in `full` mode is
always classified. -/
theorem diffOutcomeAt_full_ne_skip (dp : String → Option Int) (settings : SyncSettings)
    (lm rm : VaultManifest) (p : String) (hp : p ∈ diffUnionPaths settings lm rm) :
    diffOutcomeAt dp settings lm rm SyncMode.full p ≠ DiffOutcome.skip := by
  have hmem := (mem_firstDedup _ p).mp hp
  rcases List.mem_append.mp hmem with hL | hR
  · exact diffStep_full_ne_skip
      (Or.inl ((lookup_isSome_iff_mem_keys (filteredMap settings lm) p).mpr hL))
  · exact diffStep_full_ne_skip
      (Or.inr ((lookup_isSome_iff_mem_keys (filteredMap settings rm) p).mpr hR))

/-! ### Concrete fixtures

`dpFixture` is a stand-in for the environment's `Date.parse`, mapping the
fixture timestamp strings to epoch values. -/

def dpFixture : String → Option Int := fun s =>
  if s = "T1" then some 1000 else if s = "T2" then some 2000 else none

def recLocal : ManifestFileRecord :=
  { path := "a.md", size := 3, checksum := "X", modified := "T1", category := none }

def recRemote : ManifestFileRecord :=
  { path := "a.md", size := 4, checksum := "Y", modified := "T2", category := none }

def recRemoteEq : ManifestFileRecord :=
  { path := "a.md", size := 4, checksum := "Y", modified := "T1", category := none }

def lmFixture : VaultManifest := { generatedAt := "G", files := [recLocal] }

def rmFixture : VaultManifest := { generatedAt := "G", files := [recRemote] }

def rmEqFixture : VaultManifest := { generatedAt := "G", files := [recRemoteEq] }

def rmEmptyFixture : VaultManifest := { generatedAt := "G", files := [] }

/-- The conflict the diff produces for `lmFixture` against `rmEqFixture`. -/
def cEqFix : SyncConflict :=
  { path := "a.md", localModified := 1000, remoteModified := "T1",
    localSize := 3, remoteSize := 4 }

/-- A conflict whose remote timestamp parses strictly newer than local. -/
def cNewerFix : SyncConflict :=
  { path := "a.md", localModified := 1000, remoteModified := "T2",
    localSize := 3, remoteSize := 4 }

def tmpSettings : SyncSettings :=
  { DEFAULT_SYNC_SETTINGS with excludePatterns := ["**/*.tmp"] }

def tasksOnlySettings : SyncSettings :=
  { DEFAULT_SYNC_SETTINGS with syncCategories := ["tasks"] }

def recTmp : ManifestFileRecord :=
  { path := "notes/draft.tmp", size := 1, checksum := "Z", modified := "T1", category := none }

def lmTmp : VaultManifest := { generatedAt := "G", files := [recTmp] }

/-- A flat `{files: [...]}` manifest body. -/
def flatBody : Json := Json.obj
  [("generatedAt", Json.str "G"),
   ("files", Json.arr [Json.obj
      [("path", Json.str "tasks/a.md"), ("checksum", Json.str "abc"),
       ("modified", Json.str "M"), ("size", Json.num 5)]])]

/-- The same manifest in keyed-object form. -/
def keyedBody : Json := Json.obj
  [("tasks/a.md", Json.obj
      [("checksum", Json.str "abc"), ("modified", Json.str "M"), ("size", Json.num 5)])]

def expectedRec : ManifestFileRecord :=
  { path := "tasks/a.md", checksum := "abc", modified := "M", size := 5,
    category := some "tasks" }

/-! ### Claim C1: partition invariant of the diff -/

/-- C1, counterexample to the claim as stated: in `pull` mode a local-only
path (`"a.md"`, present in the union of the two manifests) appears in none
of the five collections of the returned plan. -/
theorem diff_partition_counterexample :
    pathCount (diffManifests dpFixture DEFAULT_SYNC_SETTINGS lmFixture rmEmptyFixture
        SyncMode.pull) "a.md" = 0 ∧
      "a.md" ∈ lmFixture.files.map ManifestFileRecord.path := by decide

/-- C1 (amended): for every pair of manifests, every mode and every settings
value, no path appears in more than one of the five collections of the plan
returned by `diffManifests`; and in `full` mode every path of the union of
the two filtered manifests appears in exactly one of them. -/
theorem diff_partition_amended :
    (∀ (dp : String → Option Int) (settings : SyncSettings) (lm rm : VaultManifest)
        (mode : SyncMode) (p : String),
        pathCount (diffManifests dp settings lm rm mode) p ≤ 1) ∧
    (∀ (dp : String → Option Int) (settings : SyncSettings) (lm rm : VaultManifest)
        (p : String), p ∈ diffUnionPaths settings lm rm →
        pathCount (diffManifests dp settings lm rm SyncMode.full) p = 1) := by
  constructor
  · intro dp settings lm rm mode p
    rw [pathCount_diff]
    split
    · exact Nat.zero_le 1
    · rw [length_filter_eq_of_nodup _ _ (diffUnionPaths_nodup settings lm rm)]
      split <;> omega
  · intro dp settings lm rm p hp
    rw [pathCount_diff,
      if_neg (diffOutcomeAt_full_ne_skip dp settings lm rm p hp),
      length_filter_eq_of_nodup _ _ (diffUnionPaths_nodup settings lm rm)]
    exact if_pos hp

/-- C1 witness: the amended partition equality at a concrete input. -/
theorem diff_partition_amended_witness :
    pathCount (diffManifests dpFixture DEFAULT_SYNC_SETTINGS lmFixture rmEmptyFixture
      SyncMode.full) "a.md" = 1 :=
  diff_partition_amended.2 dpFixture DEFAULT_SYNC_SETTINGS lmFixture rmEmptyFixture
    "a.md" (by decide)

/-! ### Claim C2: the conflict gate -/

/-- C2, counterexample to the claim as stated: with
`lastSyncTimestamp = 0`, equal modification times and differing checksums,
the `full`-mode fallback still classifies the path as a conflict, so a
conflict does not require `lastSyncTimestamp > 0`. -/
theorem conflict_gate_counterexample :
    (diffManifests dpFixture DEFAULT_SYNC_SETTINGS lmFixture rmEqFixture
        SyncMode.full).conflicts = [cEqFix] ∧
      DEFAULT_SYNC_SETTINGS.lastSyncTimestamp = 0 := by decide

/-- C2 (amended): a path is classified as a conflict only in `full` mode and
then only when either the both-modified-since-last-sync gate fired
(`lastSyncTimestamp > 0` and both sides strictly newer than it) or the two
modification epochs are equal (the fallback); and in the scenario with
`lastSyncTimestamp = 0`, local `{a.md, X, T1}` and remote `{a.md, Y, T2}`
with `T2 > T1`, the plan pulls `a.md` with reason "remote newer" and
reports no conflict. -/
theorem conflict_gate_amended :
    (∀ (dp : String → Option Int) (settings : SyncSettings) (lm rm : VaultManifest)
        (mode : SyncMode) (c : SyncConflict),
        c ∈ (diffManifests dp settings lm rm mode).conflicts →
        mode = SyncMode.full ∧
          ((settings.lastSyncTimestamp > 0 ∧
              c.localModified > settings.lastSyncTimestamp ∧
              toEpoch dp c.remoteModified > settings.lastSyncTimestamp) ∨
            toEpoch dp c.remoteModified = c.localModified)) ∧
    (diffManifests dpFixture DEFAULT_SYNC_SETTINGS lmFixture rmFixture
        SyncMode.full).toPull =
      [{ path := "a.md", direction := SyncDirection.pull, reason := "remote newer",
         localModified := some 1000, remoteModified := some "T2", size := some 4 }] ∧
    (diffManifests dpFixture DEFAULT_SYNC_SETTINGS lmFixture rmFixture
        SyncMode.full).conflicts = [] := by
  refine ⟨?_, by decide, by decide⟩
  intro dp settings lm rm mode c hc
  rcases List.mem_filterMap.mp hc with ⟨p, hp, hfp⟩
  exact diffStep_conflict_inversion (outConflict_eq_some hfp)

/-- C2 witness: the amended characterization applied to the conflict the
diff produces at a concrete input. -/
theorem conflict_gate_amended_witness :
    SyncMode.full = SyncMode.full ∧
      ((DEFAULT_SYNC_SETTINGS.lastSyncTimestamp > 0 ∧
          cEqFix.localModified > DEFAULT_SYNC_SETTINGS.lastSyncTimestamp ∧
          toEpoch dpFixture cEqFix.remoteModified > DEFAULT_SYNC_SETTINGS.lastSyncTimestamp) ∨
        toEpoch dpFixture cEqFix.remoteModified = cEqFix.localModified) :=
  conflict_gate_amended.1 dpFixture DEFAULT_SYNC_SETTINGS lmFixture rmEqFixture
    SyncMode.full cEqFix (by decide)

/-! ### Claim C3: newest-wins tie-break -/

/-- C3: with strategy `newest-wins` the resolver returns the pull action
exactly when the remote modification timestamp parses to a value strictly
newer than the local one, and the push action otherwise; in particular a
tie always resolves to push (local wins). -/
theorem resolver_newest_wins_tiebreak :
    ∀ (dp : String → Option Int) (isMobile : Bool) (conflict : SyncConflict),
      (SyncResolver.resolve dp isMobile conflict "newest-wins" =
          { action := SyncResolver.createPullAction conflict "conflict: remote newer",
            preserveLocalCopy := false } ↔
        ∃ t, dp conflict.remoteModified = some t ∧ conflict.localModified < t) ∧
      (SyncResolver.resolve dp isMobile conflict "newest-wins" =
          { action := SyncResolver.createPushAction conflict "conflict: local newer",
            preserveLocalCopy := false } ↔
        ∀ t, dp conflict.remoteModified = some t → t ≤ conflict.localModified) ∧
      (dp conflict.remoteModified = some conflict.localModified →
        SyncResolver.resolve dp isMobile conflict "newest-wins" =
          { action := SyncResolver.createPushAction conflict "conflict: local newer",
            preserveLocalCopy := false }) := by
  intro dp isMobile conflict
  have hres : SyncResolver.resolve dp isMobile conflict "newest-wins" =
      SyncResolver.resolveNewest dp conflict := rfl
  rw [hres]
  cases hdp : dp conflict.remoteModified with
  | none =>
    simp only [SyncResolver.resolveNewest, hdp]
    refine ⟨?_, ?_, ?_⟩
    · simp [SyncResolver.createPullAction, SyncResolver.createPushAction,
        ResolvedConflictAction.mk.injEq, SyncFileAction.mk.injEq]
    · simp
    · intro h; cases h
  | some t =>
    simp only [SyncResolver.resolveNewest, hdp]
    by_cases hlt : conflict.localModified < t
    · rw [if_pos (by omega)]
      refine ⟨?_, ?_, ?_⟩
      · simp only [true_iff]
        exact ⟨t, rfl, hlt⟩
      · constructor
        · intro h
          exfalso
          simp [SyncResolver.createPullAction, SyncResolver.createPushAction,
            ResolvedConflictAction.mk.injEq, SyncFileAction.mk.injEq] at h
        · intro h
          exfalso
          have := h t rfl
          omega
      · intro h
        exfalso
        injection h with h
        omega
    · rw [if_neg (by omega)]
      refine ⟨?_, ?_, ?_⟩
      · constructor
        · intro h
          exfalso
          simp [SyncResolver.createPullAction, SyncResolver.createPushAction,
            ResolvedConflictAction.mk.injEq, SyncFileAction.mk.injEq] at h
        · rintro ⟨t', ht', hlt'⟩
          exfalso
          injection ht' with ht'
          omega
      · simp only [iff_true_intro rfl, true_iff]
        intro t' ht'
        injection ht' with ht'
        omega
      · intro _
        rfl

/-- C3 witness: a concrete tie resolves to push. -/
theorem resolver_newest_wins_tiebreak_witness :
    SyncResolver.resolve dpFixture false cEqFix "newest-wins" =
      { action := SyncResolver.createPushAction cEqFix "conflict: local newer",
        preserveLocalCopy := false } :=
  (resolver_newest_wins_tiebreak dpFixture false cEqFix).2.2 (by decide)

/-! ### Claim C5: restricted modes produce no conflicts -/

theorem filterMap_eq_nil_of_none {α β : Type} (f : α → Option β) (l : List α)
    (h : ∀ a ∈ l, f a = none) : l.filterMap f = [] := by
  induction l with
  | nil => rfl
  | cons x xs ih =>
    rw [List.filterMap_cons, h x (List.mem_cons_self x xs)]
    exact ih (fun a ha => h a (List.mem_cons_of_mem x ha))

/-- C5: for every pair of manifests and every settings value,
`diffManifests` in `pull` mode and in `push` mode returns a plan with an
empty conflicts sequence. -/
theorem restricted_modes_no_conflicts :
    ∀ (dp : String → Option Int) (settings : SyncSettings) (lm rm : VaultManifest),
      (diffManifests dp settings lm rm SyncMode.pull).conflicts = [] ∧
      (diffManifests dp settings lm rm SyncMode.push).conflicts = [] := by
  intro dp settings lm rm
  constructor <;>
  · apply filterMap_eq_nil_of_none
    intro p _
    cases hfp : outConflict (diffOutcomeAt dp settings lm rm _ p) with
    | none => rfl
    | some c =>
      have hmode := (diffStep_conflict_inversion (outConflict_eq_some hfp)).1
      exact absurd hmode (by decide)

/-! ### Claim C4: mode-sensitive fallback -/

/-- Reduction of `diffStep` at a path present on both sides. -/
theorem diffStep_some_some (dp : String → Option Int) (settings : SyncSettings)
    (mode : SyncMode) (path : String) (localRec remote : ManifestFileRecord) :
    diffStep dp settings mode path (some localRec) (some remote) =
      (if localRec.checksum = remote.checksum ∧ localRec.checksum.length > 0 then
        DiffOutcome.unchangedA
      else if settings.lastSyncTimestamp > 0 ∧
          toEpoch dp localRec.modified > settings.lastSyncTimestamp ∧
          toEpoch dp remote.modified > settings.lastSyncTimestamp ∧
          mode = SyncMode.full then
        DiffOutcome.conflictA
          { path, localModified := toEpoch dp localRec.modified,
            remoteModified := remote.modified,
            localSize := localRec.size, remoteSize := remote.size }
      else if toEpoch dp remote.modified > toEpoch dp localRec.modified ∧
          mode ≠ SyncMode.push then
        DiffOutcome.pullA
          { path, direction := SyncDirection.pull, reason := "remote newer",
            localModified := some (toEpoch dp localRec.modified),
            remoteModified := some remote.modified, size := some remote.size }
      else if toEpoch dp localRec.modified > toEpoch dp remote.modified ∧
          mode ≠ SyncMode.pull then
        DiffOutcome.pushA
          { path, direction := SyncDirection.push, reason := "local newer",
            localModified := some (toEpoch dp localRec.modified),
            remoteModified := some remote.modified, size := some localRec.size }
      else if mode = SyncMode.full then
        DiffOutcome.conflictA
          { path, localModified := toEpoch dp localRec.modified,
            remoteModified := remote.modified,
            localSize := localRec.size, remoteSize := remote.size }
      else if mode = SyncMode.pull then
        DiffOutcome.pullA
          { path, direction := SyncDirection.pull, reason := "checksum mismatch",
            localModified := some (toEpoch dp localRec.modified),
            remoteModified := some remote.modified, size := some remote.size }
      else
        DiffOutcome.pushA
          { path, direction := SyncDirection.push, reason := "checksum mismatch",
            localModified := some (toEpoch dp localRec.modified),
            remoteModified := some remote.modified, size := some localRec.size }) :=
  rfl

/-- C4: for a path carried by both filtered maps with differing checksums,
when the conflict gate did not fire and neither direction is both strictly
newer and allowed by the mode, the diff falls back to `conflicts` in `full`
mode, to `toPull` with reason "checksum mismatch" in `pull` mode, and to
`toPush` with reason "checksum mismatch" in `push` mode. -/
theorem diff_mode_sensitive_fallback :
    ∀ (dp : String → Option Int) (settings : SyncSettings) (lm rm : VaultManifest)
      (mode : SyncMode) (p : String) (lrec rrec : ManifestFileRecord),
      List.lookup p (filteredMap settings lm) = some lrec →
      List.lookup p (filteredMap settings rm) = some rrec →
      ¬(lrec.checksum = rrec.checksum ∧ lrec.checksum.length > 0) →
      ¬(settings.lastSyncTimestamp > 0 ∧
          toEpoch dp lrec.modified > settings.lastSyncTimestamp ∧
          toEpoch dp rrec.modified > settings.lastSyncTimestamp ∧ mode = SyncMode.full) →
      ¬(toEpoch dp rrec.modified > toEpoch dp lrec.modified ∧ mode ≠ SyncMode.push) →
      ¬(toEpoch dp lrec.modified > toEpoch dp rrec.modified ∧ mode ≠ SyncMode.pull) →
      (mode = SyncMode.full →
        ({ path := p, localModified := toEpoch dp lrec.modified,
           remoteModified := rrec.modified, localSize := lrec.size,
           remoteSize := rrec.size } : SyncConflict) ∈
          (diffManifests dp settings lm rm mode).conflicts) ∧
      (mode = SyncMode.pull →
        ({ path := p, direction := SyncDirection.pull, reason := "checksum mismatch",
           localModified := some (toEpoch dp lrec.modified),
           remoteModified := some rrec.modified, size := some rrec.size } : SyncFileAction) ∈
          (diffManifests dp settings lm rm mode).toPull) ∧
      (mode = SyncMode.push →
        ({ path := p, direction := SyncDirection.push, reason := "checksum mismatch",
           localModified := some (toEpoch dp lrec.modified),
           remoteModified := some rrec.modified, size := some lrec.size } : SyncFileAction) ∈
          (diffManifests dp settings lm rm mode).toPush) := by
  intro dp settings lm rm mode p lrec rrec hl hr hck hgate hrl hlr
  have hpmem : p ∈ diffUnionPaths settings lm rm := by
    apply (mem_firstDedup _ _).mpr
    apply List.mem_append.mpr
    left
    exact (lookup_isSome_iff_mem_keys _ _).mp (by rw [hl]; rfl)
  have hstep : diffOutcomeAt dp settings lm rm mode p =
      diffStep dp settings mode p (some lrec) (some rrec) := by
    unfold diffOutcomeAt
    rw [hl, hr]
  refine ⟨?_, ?_, ?_⟩ <;> intro hm <;> subst hm <;>
    (apply List.mem_filterMap.mpr
     refine ⟨p, hpmem, ?_⟩
     rw [hstep, diffStep_some_some]
     repeat' split
     all_goals try rfl
     all_goals exfalso
     all_goals try exact hck ‹_›
     all_goals simp_all)

/-- C4 witness: equal timestamps in `pull` mode yield a "checksum mismatch"
pull at a concrete input. -/
theorem diff_mode_sensitive_fallback_witness :
    ({ path := "a.md", direction := SyncDirection.pull, reason := "checksum mismatch",
       localModified := some 1000, remoteModified := some "T1",
       size := some 4 } : SyncFileAction) ∈
      (diffManifests dpFixture DEFAULT_SYNC_SETTINGS lmFixture rmEqFixture
        SyncMode.pull).toPull :=
  ((diff_mode_sensitive_fallback dpFixture DEFAULT_SYNC_SETTINGS lmFixture rmEqFixture
      SyncMode.pull "a.md" recLocal
      { recRemoteEq with path := "a.md" }
      (by decide) (by decide) (by decide) (by decide) (by decide) (by decide)).2.1) rfl

/-! ### Claim C6: exclusion correctness -/

/-- Occurrences of a path across the four action-carrying buckets of a plan
(everything except `unchanged`). -/
def excludedBucketCount (plan : SyncPlan) (p : String) : Nat :=
  (plan.toPull.filter (fun a => a.path = p)).length +
    (plan.toPush.filter (fun a => a.path = p)).length +
    (plan.conflicts.filter (fun c => c.path = p)).length +
    (plan.toDelete.filter (fun a => a.path = p)).length

/-- A path that passes `shouldSyncPath` is not matched by the exclusion
patterns (in normalized form). -/
theorem shouldSyncPath_not_excluded {settings : SyncSettings} {path : String}
    {co : Option String} (h : shouldSyncPath settings path co = true) :
    matchesExcludePatterns settings (normalizePath path) = false := by
  unfold shouldSyncPath at h
  split at h
  · cases h
  · split at h
    · cases h
    · rename_i hcond
      simpa using hcond

/-- An excluded path is not a key of the diff's union. -/
theorem excluded_not_mem_diffUnionPaths {settings : SyncSettings}
    {lm rm : VaultManifest} {p : String}
    (hexcl : matchesExcludePatterns settings p = true) :
    p ∉ diffUnionPaths settings lm rm := by
  intro hp
  have hmem := (mem_firstDedup _ p).mp hp
  rcases List.mem_append.mp hmem with hL | hR
  · rcases filteredMap_key_shouldSync settings lm p hL with ⟨e, _, hsync, hq⟩
    have := shouldSyncPath_not_excluded hsync
    rw [hq, hexcl] at this
    cases this
  · rcases filteredMap_key_shouldSync settings rm p hR with ⟨e, _, hsync, hq⟩
    have := shouldSyncPath_not_excluded hsync
    rw [hq, hexcl] at this
    cases this

/-- C6: a path matched by a configured exclusion glob appears in none of
`toPull`, `toPush`, `conflicts`, `toDelete` of any plan `diffManifests`
produces (its occurrence count across those buckets is zero). -/
theorem exclusion_correctness :
    ∀ (dp : String → Option Int) (settings : SyncSettings) (lm rm : VaultManifest)
      (mode : SyncMode) (p : String),
      matchesExcludePatterns settings p = true →
      excludedBucketCount (diffManifests dp settings lm rm mode) p = 0 := by
  intro dp settings lm rm mode p hexcl
  have hnot : p ∉ diffUnionPaths settings lm rm :=
    excluded_not_mem_diffUnionPaths hexcl
  have hcnt : ((diffUnionPaths settings lm rm).filter (fun q => q = p)).length = 0 := by
    rw [length_filter_eq_of_nodup _ _ (diffUnionPaths_nodup settings lm rm), if_neg hnot]
  unfold excludedBucketCount diffManifests
  simp only
  rw [length_filter_filterMap (fun q => outPull (diffOutcomeAt dp settings lm rm mode q))
      SyncFileAction.path
      (fun q a h => diffStep_pullA_path (outPull_eq_some h))]
  rw [length_filter_filterMap (fun q => outPush (diffOutcomeAt dp settings lm rm mode q))
      SyncFileAction.path
      (fun q a h => diffStep_pushA_path (outPush_eq_some h))]
  rw [length_filter_filterMap (fun q => outConflict (diffOutcomeAt dp settings lm rm mode q))
      SyncConflict.path
      (fun q c h => diffStep_conflictA_path (outConflict_eq_some h))]
  rw [hcnt]
  simp

/-- C6 witness: with `excludePatterns = ["**/*.tmp"]` the local-only file
`notes/draft.tmp` is matched and absent from every action bucket. -/
theorem exclusion_correctness_witness :
    excludedBucketCount (diffManifests dpFixture tmpSettings lmTmp rmEmptyFixture
      SyncMode.full) "notes/draft.tmp" = 0 :=
  exclusion_correctness dpFixture tmpSettings lmTmp rmEmptyFixture SyncMode.full
    "notes/draft.tmp" (by decide)

/-! ### Claim C7: category filtering and root-level files -/

/-- C7: evaluation of `shouldSyncPath` under `syncCategories = ["tasks"]`.
A file under `tasks/` passes and a file under `decisions/` is rejected, as
the claim states; but a root-level file `a.md` is rejected, because
`getCategoryForPath` returns the file name itself (`"a.md"`) as its
category rather than the empty category, so the root-level branch the
source comments with "Root-level files should continue syncing" is never
reached for it.  Only dot-leading root files get the empty category. -/
theorem shouldSyncPath_root_level_evaluation :
    shouldSyncPath tasksOnlySettings "a.md" none = false ∧
      shouldSyncPath tasksOnlySettings "tasks/t.md" none = true ∧
      shouldSyncPath tasksOnlySettings "decisions/d.md" none = false ∧
      getCategoryForPath "a.md" = "a.md" ∧
      shouldSyncPath tasksOnlySettings ".zrc" none = true := by decide

/-! ### Claim C8: resolver totality and default strategy -/

/-- C8: `resolve` is a total function, and every strategy value outside the
recognized set resolves exactly as the `newest-wins` default does. -/
theorem resolver_totality_default :
    ∀ (dp : String → Option Int) (isMobile : Bool) (conflict : SyncConflict)
      (strategy : String),
      strategy ∉ ["remote-wins", "local-wins", "keep-both", "ask", "newest-wins"] →
      SyncResolver.resolve dp isMobile conflict strategy =
        SyncResolver.resolve dp isMobile conflict "newest-wins" := by
  intro dp isMobile conflict strategy h
  simp only [List.mem_cons, List.not_mem_nil, or_false, not_or] at h
  obtain ⟨h1, h2, h3, h4, h5⟩ := h
  unfold SyncResolver.resolve
  have hmask : (if strategy = "ask" ∧ isMobile = true then "newest-wins" else strategy) =
      strategy :=
    if_neg (fun hc => h4 hc.1)
  rw [hmask, if_neg h1, if_neg h2, if_neg h3, if_neg h4]
  rfl

/-- C8 witness: a concrete unrecognized strategy string resolves like
`newest-wins`. -/
theorem resolver_totality_default_witness :
    SyncResolver.resolve dpFixture false cNewerFix "bogus" =
      SyncResolver.resolve dpFixture false cNewerFix "newest-wins" :=
  resolver_totality_default dpFixture false cNewerFix "bogus" (by decide)

/-! ### Claim C9: the diff never plans deletions -/

/-- C9: for all inputs the plan's `toDelete` sequence is empty, and hence
(abstracting the per-action remote calls by a success oracle) a sync run
performs no delete operations and reports a `deleted` count of 0 for every
execution mode. -/
theorem diff_never_deletes :
    ∀ (dp : String → Option Int) (settings : SyncSettings) (lm rm : VaultManifest)
      (mode : SyncMode),
      (diffManifests dp settings lm rm mode).toDelete = [] ∧
      ∀ (success : String → Bool) (mode2 : SyncMode),
        executeSyncDeleted success (diffManifests dp settings lm rm mode) mode2 = 0 := by
  intro dp settings lm rm mode
  refine ⟨rfl, ?_⟩
  intro success mode2
  unfold executeSyncDeleted
  rw [if_neg]
  rintro ⟨-, hlen⟩
  simp [show (diffManifests dp settings lm rm mode).toDelete = [] from rfl] at hlen

/-! ### Claim C10: manifest fetch normalization and failure -/

/-- C10, counterexample to the claim as stated: the body `{}` is parseable
JSON that lacks any usable file list, yet `fetchManifest` does not fail —
it succeeds with an empty file list (`generatedAt` defaulting to "now"). -/
theorem fetch_manifest_counterexample :
    fetchManifestFromPayload "NOW" (some (Json.obj [])) =
      Except.ok { generatedAt := "NOW", files := [] } := rfl

/-- C10 (amended): `fetchManifest` accepts both the flat `{files: [...]}`
shape and the keyed-object shape and normalizes both into a
`VaultManifest`; it fails exactly when the body is not parseable JSON,
parses to a falsy value, or parses to a non-object (array or primitive) —
an object body lacking a usable file list succeeds with an empty `files`
list rather than failing. -/
theorem fetch_manifest_amended :
    (∀ nowIso : String,
        fetchManifestFromPayload nowIso none =
          Except.error "Manifest response was empty") ∧
    (∀ (nowIso : String) (j : Json), jsFalsy j = true →
        fetchManifestFromPayload nowIso (some j) =
          Except.error "Manifest response was empty") ∧
    (∀ (nowIso : String) (j : Json), jsFalsy j = false → (toRecord j).isNone = true →
        fetchManifestFromPayload nowIso (some j) =
          Except.error "Manifest payload is not an object") ∧
    (∀ (nowIso : String) (fields : List (String × Json)),
        ∃ m : VaultManifest,
          fetchManifestFromPayload nowIso (some (Json.obj fields)) = Except.ok m) ∧
    fetchManifestFromPayload "NOW" (some flatBody) =
      Except.ok { generatedAt := "G", files := [expectedRec] } ∧
    fetchManifestFromPayload "NOW" (some keyedBody) =
      Except.ok { generatedAt := "NOW", files := [expectedRec] } := by
  refine ⟨fun _ => rfl, ?_, ?_, fun nowIso fields => ⟨_, rfl⟩, rfl, rfl⟩
  · intro nowIso j h
    show (if jsFalsy j = true then Except.error "Manifest response was empty"
        else normalizeManifest nowIso j) = Except.error "Manifest response was empty"
    rw [if_pos h]
  · intro nowIso j hf hr
    show (if jsFalsy j = true then Except.error "Manifest response was empty"
        else normalizeManifest nowIso j) = Except.error "Manifest payload is not an object"
    rw [if_neg (by simp [hf])]
    unfold normalizeManifest
    cases hm : toRecord j with
    | none => rfl
    | some s => rw [hm] at hr; simp at hr

/-- C10 witness: the failure cases of the amended characterization at
concrete payloads. -/
theorem fetch_manifest_amended_witness :
    fetchManifestFromPayload "NOW" (some (Json.num 0)) =
        Except.error "Manifest response was empty" ∧
      fetchManifestFromPayload "NOW" (some (Json.arr [])) =
        Except.error "Manifest payload is not an object" :=
  ⟨fetch_manifest_amended.2.1 "NOW" (Json.num 0) rfl,
    fetch_manifest_amended.2.2.1 "NOW" (Json.arr []) rfl rfl⟩

end ClawVault
